import Mathlib

/-!
# Verification of the GrowShip spreadsheet ingestion pipeline

Shallow embedding of the column-mapping, data-cleaning, header-detection and
sheet-scoring code of `Backend/app/utils/openai_mapper.py` and
`Backend/app/utils/excel_processor.py`, together with proofs settling the
frozen specification claims.

Modelling conventions:
* Column names and cell text are Lean `String`s; keyword matching is done on
  `List Char` to keep everything kernel-computable.
* A pandas cell is a `Value`: an integer (`Value.int`), a text (`Value.str`)
  or the missing marker NaN (`Value.none_`).  Numbers are modelled as
  integers; float-specific behaviour is outside the model.
* `pd.to_numeric(..., errors := coerce)` is modelled by parsing optional-sign
  decimal integer literals; anything else coerces to the missing marker.
* The external classifier call of `map_columns_with_openai` is modelled by
  its observable outcome: `none` when the call raises, `some none` when the
  response text does not decode as a flat JSON object (the
  `json.JSONDecodeError` branch of `_parse_openai_response`), and
  `some (some m)` when it decodes to the flat string-to-string object `m`.
-/

/-! ## Character-list string helpers -/

/-- Does `pat` occur at the head of `s`?  (`str.startswith` on char lists.) -/
def leadMatch : List Char → List Char → Bool
  | [], _ => true
  | _ :: _, [] => false
  | a :: as, b :: bs => a == b && leadMatch as bs

/-- Does `pat` occur as a contiguous substring of `s`?
(Python's `pat in s` on strings.) -/
def hasSub (pat : List Char) : List Char → Bool
  | [] => leadMatch pat []
  | c :: rest => leadMatch pat (c :: rest) || hasSub pat rest

/-- Lower-cased character list of a string (`str.lower()`). -/
def lowerOf (s : String) : List Char :=
  s.toList.map Char.toLower

/-- Substring test after lower-casing both sides:
`keyword.lower() in name.lower()`. -/
def kwIn (keyword name : String) : Bool :=
  hasSub (lowerOf keyword) (lowerOf name)

/-! ## The canonical schema and the local (Tier 1+2) mapper,
from `OpenAIColumnMapper` in `openai_mapper.py` -/

/-- `OpenAIColumnMapper.REQUIRED_COLUMNS`. -/
def REQUIRED_COLUMNS : List String :=
  ["Product Name", "Country", "Year", "Month", "Sales Count",
   "Sales Value (usd)", "SOH", "Description", "Type"]

/-- The `exact_matches` dictionary of `_fallback_mapping`, before the USD/LC
override. -/
def defaultExactNames : String → List String
  | "Product Name" => ["Category", "Product Name", "Product"]
  | "Country" => ["Country"]
  | "Year" => ["Year"]
  | "Month" => ["Month"]
  | "Sales Count" => ["Quantity", "Qty", "Volume", "Count", "Units", "Sales Count"]
  | "Sales Value (usd)" =>
      ["Sales Value (USD)", "Sales Value (usd)", "Sales USD", "Revenue USD",
       "Sales Value", "Earning", "Earnings", "Revenue", "Revenues"]
  | "SOH" => ["SOH (Vol)", "SOH", "Stock", "Inventory"]
  | "Description" => ["Item Description", "Description", "Details"]
  | "Type" => ["Type", "Category", "Group"]
  | _ => []

/-- Is a column name a USD indicator
(`any(keyword in col_lower for keyword in [usd, dollar, $])`)? -/
def usdPred (c : String) : Bool :=
  ["usd", "dollar", "$"].any (fun k => kwIn k c)

/-- Is a column name a local-currency indicator?  In the source this is the
`elif` branch, so it only fires when `usdPred` does not. -/
def lcPred (c : String) : Bool :=
  !usdPred c && ["lc", "local currency", "local"].any (fun k => kwIn k c)

/-- `usd_columns` of `_fallback_mapping`. -/
def usdColumns (cols : List String) : List String :=
  cols.filter usdPred

/-- `lc_columns` of `_fallback_mapping`. -/
def lcColumns (cols : List String) : List String :=
  cols.filter lcPred

/-- The exact-name candidate list per canonical field, after the special USD
detection logic replaced or extended the `Sales Value (usd)` entry. -/
def exactMatchesFor (cols : List String) (f : String) : List String :=
  if f == "Sales Value (usd)" then
    if !(usdColumns cols).isEmpty then usdColumns cols
    else if !(lcColumns cols).isEmpty then lcColumns cols ++ defaultExactNames f
    else defaultExactNames f
  else defaultExactNames f

/-- The first exact-match pass of `_fallback_mapping`: the first original
column whose name is literally in the accepted list, else NOT_FOUND. -/
def exactValue (cols : List String) (f : String) : String :=
  match cols.find? (fun c => (exactMatchesFor cols f).contains c) with
  | some c => c
  | none => "NOT_FOUND"

/-- The `column_mapping_rules` of the fuzzy pass. -/
def keywordRules : String → List String
  | "Product Name" => ["category", "product name", "sku", "barcode", "product", "name"]
  | "Country" => ["country", "nation", "region", "market"]
  | "Year" => ["year", "yr"]
  | "Month" => ["month", "mon"]
  | "Sales Count" =>
      ["quantity", "qty", "volume", "vol", "count", "units", "sales count",
       "total quantity"]
  | "Sales Value (usd)" =>
      ["sales value (usd)", "sales value (usd)", "sales usd", "sales value",
       "earning", "earnings", "revenue usd", "amount usd", "value usd",
       "sales value usd", "revenue", "revenues"]
  | "SOH" => ["soh (vol)", "soh", "stock", "inventory", "stock on hand", "soh vol"]
  | "Description" => ["item description", "description", "desc", "details", "notes"]
  | "Type" => ["type", "category", "group", "class", "sub"]
  | _ => []

/-- The fuzzy-pass predicate: the column name contains some keyword, and the
Sales Count exclusion (`original_col.lower() == 'country'` is skipped). -/
def fuzzyPred (f : String) (c : String) : Bool :=
  (keywordRules f).any (fun k => kwIn k c) &&
    !(f == "Sales Count" && lowerOf c == "country".toList)

/-- The targeted second USD pass: a USD-ish indicator and a sales-related
keyword must co-occur in the column name. -/
def usdSalesPred (c : String) : Bool :=
  (["usd", "dollar", "$", "us"].any (fun k => kwIn k c)) &&
    (["sales", "revenue", "value", "amount", "earning"].any (fun k => kwIn k c))

/-- The fuzzy pass of `_fallback_mapping` for a single field that the exact
pass left NOT_FOUND. -/
def fuzzyValue (cols : List String) (f : String) : String :=
  match cols.find? (fuzzyPred f) with
  | some c => c
  | none =>
      if f == "Sales Value (usd)" then
        match cols.find? usdSalesPred with
        | some c => c
        | none => "NOT_FOUND"
      else "NOT_FOUND"

/-- The mapping after the exact pass: the dictionary built by the first loop
of `_fallback_mapping`, keyed by the nine canonical fields in order. -/
def exactMapping (cols : List String) : List (String × String) :=
  REQUIRED_COLUMNS.map (fun f => (f, exactValue cols f))

/-- `OpenAIColumnMapper._fallback_mapping`: the exact pass, then — only if
some field is still NOT_FOUND — the fuzzy pass updating exactly the
NOT_FOUND fields. -/
def fallbackMapping (cols : List String) : List (String × String) :=
  if (exactMapping cols).any (fun p => p.2 == "NOT_FOUND") then
    (exactMapping cols).map
      (fun p => if p.2 == "NOT_FOUND" then (p.1, fuzzyValue cols p.1) else p)
  else exactMapping cols

/-- `OpenAIColumnMapper._create_empty_mapping`. -/
def createEmptyMapping : List (String × String) :=
  REQUIRED_COLUMNS.map (fun f => (f, "NOT_FOUND"))

/-- `OpenAIColumnMapper._parse_openai_response`, modelled from the decoded
form of the response text: `none` is the `json.JSONDecodeError` branch
(empty mapping); a decoded flat object keeps all its entries and appends
NOT_FOUND entries for the required fields it lacks. -/
def parseOpenaiResponse (decoded : Option (List (String × String))) :
    List (String × String) :=
  match decoded with
  | none => createEmptyMapping
  | some m =>
      m ++ (REQUIRED_COLUMNS.filter
              (fun f => !(m.any (fun p => p.1 == f)))).map (fun f => (f, "NOT_FOUND"))

/-- `OpenAIColumnMapper.map_columns_with_openai`, as a function of the table's
columns and of the classifier-call outcome (see the module docstring):
a raised call falls back to `_fallback_mapping`; a returned response is
handed to `_parse_openai_response`. -/
def mapColumnsWithOpenai (cols : List String)
    (callOutcome : Option (Option (List (String × String)))) :
    List (String × String) :=
  match callOutcome with
  | none => fallbackMapping cols
  | some decoded => parseOpenaiResponse decoded

/-- Looking a canonical field up in a mapping (dictionary access). -/
def valueOf (m : List (String × String)) (f : String) : String :=
  match m.find? (fun p => p.1 == f) with
  | some p => p.2
  | none => "NOT_FOUND"

/-- The per-field result of `_fallback_mapping`: the exact value if the exact
pass resolved the field, else the fuzzy value. -/
def finalValue (cols : List String) (f : String) : String :=
  if exactValue cols f == "NOT_FOUND" then fuzzyValue cols f else exactValue cols f

/-! ## Structural lemmas about the local mapper -/

/-- The two-phase `_fallback_mapping` computes `finalValue` per field. -/
theorem fallback_eq_final (cols : List String) :
    fallbackMapping cols = REQUIRED_COLUMNS.map (fun f => (f, finalValue cols f)) := by
  unfold fallbackMapping
  by_cases h : ((exactMapping cols).any fun p => p.2 == "NOT_FOUND") = true
  · rw [if_pos h]
    unfold exactMapping
    rw [List.map_map]
    refine List.map_congr_left ?_
    intro f _
    simp only [Function.comp_apply]
    by_cases he : (exactValue cols f == "NOT_FOUND") = true
    · simp [finalValue, he]
    · simp [finalValue, he]
  · rw [if_neg h]
    have hfalse : ((exactMapping cols).any fun p => p.2 == "NOT_FOUND") = false :=
      Bool.eq_false_iff.mpr h
    conv_lhs => unfold exactMapping
    refine List.map_congr_left ?_
    intro f hf
    have hmem : (f, exactValue cols f) ∈ exactMapping cols :=
      List.mem_map.mpr ⟨f, hf, rfl⟩
    have hne := List.any_eq_false.mp hfalse _ hmem
    simp only [Bool.not_eq_true] at hne
    simp [finalValue, hne]

/-- Looking a key up in the graph of a function over a key list. -/
theorem valueOf_map_self (l : List String) (v : String → String) (f : String)
    (hf : f ∈ l) : valueOf (l.map fun x => (x, v x)) f = v f := by
  induction l with
  | nil => cases hf
  | cons a t ih =>
      by_cases ha : (a == f) = true
      · have : a = f := eq_of_beq ha
        subst this
        simp [valueOf, List.find?]
      · rcases List.mem_cons.mp hf with h' | h'
        · exact absurd (beq_iff_eq.mpr h'.symm) (by simpa using ha)
        · simpa [valueOf, List.find?, ha] using ih h'

/-- The per-field result of `_fallback_mapping` as a lookup. -/
theorem valueOf_fallback (cols : List String) (f : String)
    (hf : f ∈ REQUIRED_COLUMNS) :
    valueOf (fallbackMapping cols) f = finalValue cols f := by
  rw [fallback_eq_final]
  exact valueOf_map_self _ _ _ hf

/-- Every per-field fallback value is NOT_FOUND or an original column. -/
theorem finalValue_mem_or_nf (cols : List String) (f : String) :
    finalValue cols f = "NOT_FOUND" ∨ finalValue cols f ∈ cols := by
  unfold finalValue
  by_cases he : (exactValue cols f == "NOT_FOUND") = true
  · simp only [he, if_true]
    unfold fuzzyValue
    rcases hfind : cols.find? (fuzzyPred f) with _ | c
    · by_cases hf : (f == "Sales Value (usd)") = true
      · simp only [hf, if_true]
        rcases husd : cols.find? usdSalesPred with _ | c
        · exact Or.inl rfl
        · exact Or.inr (List.mem_of_find?_eq_some husd)
      · simp only [Bool.not_eq_true] at hf
        simp [hf]
    · exact Or.inr (List.mem_of_find?_eq_some hfind)
  · simp only [he, if_false]
    unfold exactValue
    rcases hfind : cols.find? (fun c => (exactMatchesFor cols f).contains c) with _ | c
    · exact Or.inl rfl
    · exact Or.inr (List.mem_of_find?_eq_some hfind)

/-! ## Claims about the column mapper -/

/-- C1 (counterexample): when the classifier response decodes successfully,
its values are returned unvalidated — here the table has only the column
"A", yet the mapped value for "Product Name" is "Zebra", which is neither a
column of the table nor NOT_FOUND.  This refutes the claim for the Tier-3
parsed-response path. -/
theorem c1_counterexample :
    valueOf (mapColumnsWithOpenai ["A"] (some (some [("Product Name", "Zebra")])))
        "Product Name" = "Zebra" ∧
    "Zebra" ∉ ["A"] ∧ "Zebra" ≠ "NOT_FOUND" := by
  refine ⟨rfl, ?_, ?_⟩ <;> decide

/-- C1 (amended): the output invariant — every canonical field's value is a
column literally present in the table or NOT_FOUND — holds on the Tier-1+2
local fallback path (classifier call raised) and on the parse-failure path
(all-NOT_FOUND mapping), but not on the Tier-3 parsed-response path, whose
values are taken from the classifier response unvalidated. -/
theorem c1_fallback_values_in_columns_or_not_found (cols : List String) :
    ((mapColumnsWithOpenai cols none).all
        (fun p => p.2 == "NOT_FOUND" || cols.contains p.2)) = true ∧
    ((mapColumnsWithOpenai cols (some none)).all
        (fun p => p.2 == "NOT_FOUND" || cols.contains p.2)) = true := by
  constructor
  · show ((fallbackMapping cols).all _) = true
    rw [fallback_eq_final, List.all_eq_true]
    intro p hp
    rcases List.mem_map.mp hp with ⟨f, _, rfl⟩
    rcases finalValue_mem_or_nf cols f with h | h
    · simp [h]
    · simp [List.contains, List.elem_eq_mem, h]
  · rw [List.all_eq_true]
    intro p hp
    rcases List.mem_map.mp hp with ⟨f, _, rfl⟩
    simp

/-- C2 (counterexample): on a malformed (non-decodable) classifier response
the mapper returns the all-NOT_FOUND empty mapping, not the locally computed
Tier-1+2 fallback — for a table with the column "Country" the two differ. -/
theorem c2_counterexample :
    mapColumnsWithOpenai ["Country"] (some none) ≠ fallbackMapping ["Country"] := by
  decide

/-- C2 (amended): if the classifier call raises, the mapper returns exactly
the Tier-1+2 fallback mapping; if the call succeeds but the response text is
malformed/non-parseable, the mapper instead returns the all-NOT_FOUND empty
mapping (`_create_empty_mapping`), not the Tier-1+2 result. -/
theorem c2_raise_falls_back_parse_failure_empties (cols : List String) :
    mapColumnsWithOpenai cols none = fallbackMapping cols ∧
    mapColumnsWithOpenai cols (some none) = createEmptyMapping :=
  ⟨rfl, rfl⟩

/-- C3 (counterexample): an extra key in a decoded classifier response is
retained, so the key set of the result is not the 9 canonical fields. -/
theorem c3_counterexample :
    "Extra" ∈ (mapColumnsWithOpenai ["A"] (some (some [("Extra", "X")]))).map
        Prod.fst ∧
    "Extra" ∉ REQUIRED_COLUMNS := by
  constructor <;> decide

/-- C3 (amended): on the call-raise path and on the parse-failure path the
key list of the mapping is exactly the 9 canonical fields; on the
parsed-response path every canonical field is present among the keys, but
extra keys of the response are retained as well. -/
theorem c3_key_set (cols : List String) (m : List (String × String))
    (f : String) (hf : f ∈ REQUIRED_COLUMNS) :
    (mapColumnsWithOpenai cols none).map Prod.fst = REQUIRED_COLUMNS ∧
    (mapColumnsWithOpenai cols (some none)).map Prod.fst = REQUIRED_COLUMNS ∧
    f ∈ (mapColumnsWithOpenai cols (some (some m))).map Prod.fst := by
  refine ⟨?_, ?_, ?_⟩
  · show (fallbackMapping cols).map Prod.fst = REQUIRED_COLUMNS
    rw [fallback_eq_final]
    rfl
  · rfl
  · show f ∈ (parseOpenaiResponse (some m)).map Prod.fst
    unfold parseOpenaiResponse
    rw [List.map_append, List.map_map]
    by_cases hm : (m.any fun p => p.1 == f) = true
    · rcases List.any_eq_true.mp hm with ⟨p, hp, hpf⟩
      exact List.mem_append.mpr (Or.inl (List.mem_map.mpr ⟨p, hp, eq_of_beq hpf⟩))
    · refine List.mem_append.mpr (Or.inr ?_)
      have hmemf : f ∈ REQUIRED_COLUMNS.filter (fun f => !(m.any fun p => p.1 == f)) :=
        List.mem_filter.mpr ⟨hf, by simp [hm]⟩
      exact List.mem_map.mpr ⟨f, hmemf, rfl⟩

/-- C3 (witness): the amended key-set theorem at a concrete table, response
and canonical field. -/
theorem c3_key_set_witness :
    "Product Name" ∈ REQUIRED_COLUMNS ∧
    "Product Name" ∈ (mapColumnsWithOpenai ["A"]
        (some (some [("Extra", "X")]))).map Prod.fst :=
  ⟨by decide, (c3_key_set ["A"] [("Extra", "X")] "Product Name" (by decide)).2.2⟩

/-- C4: if a table has both "Sales Value (USD)" and "Sales Value (LC)", the
local Tier-1+2 mapper resolves "Sales Value (usd)" to a column of the table
carrying a USD indicator (usd/dollar/$ substring) — in particular never to
the LC column. -/
theorem c4_usd_over_lc (cols : List String)
    (h1 : "Sales Value (USD)" ∈ cols) (h2 : "Sales Value (LC)" ∈ cols) :
    valueOf (fallbackMapping cols) "Sales Value (usd)" ∈ cols ∧
    usdPred (valueOf (fallbackMapping cols) "Sales Value (usd)") = true ∧
    valueOf (fallbackMapping cols) "Sales Value (usd)" ≠ "Sales Value (LC)" := by
  have hv := valueOf_fallback cols "Sales Value (usd)" (by decide)
  have husd : usdPred "Sales Value (USD)" = true := by decide
  have hmem : "Sales Value (USD)" ∈ usdColumns cols := List.mem_filter.mpr ⟨h1, husd⟩
  have hnonempty : (usdColumns cols).isEmpty = false := by
    rcases he : (usdColumns cols) with _ | _
    · rw [he] at hmem
      cases hmem
    · rfl
  have hEM : exactMatchesFor cols "Sales Value (usd)" = usdColumns cols := by
    simp [exactMatchesFor, hnonempty]
  have hsome : (cols.find?
      (fun c => (exactMatchesFor cols "Sales Value (usd)").contains c)).isSome := by
    rw [List.find?_isSome]
    exact ⟨"Sales Value (USD)", h1, by rw [hEM]; exact List.elem_eq_true_of_mem hmem⟩
  obtain ⟨c, hc⟩ := Option.isSome_iff_exists.mp hsome
  have hpc := List.find?_some hc
  have hcols := List.mem_of_find?_eq_some hc
  rw [hEM] at hpc
  have hcusd : c ∈ usdColumns cols := by
    simpa [List.contains, List.elem_eq_mem] using hpc
  have hcu : usdPred c = true := (List.mem_filter.mp hcusd).2
  have hEx : exactValue cols "Sales Value (usd)" = c := by
    unfold exactValue
    rw [hc]
  have hcnf : (c == "NOT_FOUND") = false := by
    rcases hb : (c == "NOT_FOUND") with _ | _
    · rfl
    · rw [eq_of_beq hb] at hcu
      exact absurd hcu (by decide)
  have hfin : finalValue cols "Sales Value (usd)" = c := by
    simp [finalValue, hEx, hcnf]
  rw [hv, hfin]
  refine ⟨hcols, hcu, ?_⟩
  intro heq
  rw [heq] at hcu
  exact absurd hcu (by decide)

/-- C4 (witness): the USD/LC theorem at the two-column table. -/
theorem c4_usd_over_lc_witness :
    ("Sales Value (USD)" ∈ (["Sales Value (USD)", "Sales Value (LC)"] : List String)) ∧
    valueOf (fallbackMapping ["Sales Value (USD)", "Sales Value (LC)"])
        "Sales Value (usd)" ≠ "Sales Value (LC)" :=
  ⟨by decide, (c4_usd_over_lc ["Sales Value (USD)", "Sales Value (LC)"]
      (by decide) (by decide)).2.2⟩

/-- C5: for every table, the local Tier-1+2 mapper never assigns the value
"Country" to the canonical field "Sales Count" — in particular for tables
that do contain a column literally named "Country". -/
theorem c5_sales_count_never_country (cols : List String)
    (h : "Country" ∈ cols) :
    valueOf (fallbackMapping cols) "Sales Count" ≠ "Country" := by
  rw [valueOf_fallback cols "Sales Count" (by decide)]
  unfold finalValue
  by_cases he : (exactValue cols "Sales Count" == "NOT_FOUND") = true
  · rw [if_pos he]
    unfold fuzzyValue
    rcases hfind : cols.find? (fuzzyPred "Sales Count") with _ | c
    · show ("NOT_FOUND" : String) ≠ "Country"
      decide
    · show c ≠ "Country"
      have hp := List.find?_some hfind
      intro heq
      rw [heq] at hp
      exact absurd hp (by decide)
  · rw [if_neg he]
    unfold exactValue
    rcases hfind : cols.find?
        (fun c => (exactMatchesFor cols "Sales Count").contains c) with _ | c
    · show ("NOT_FOUND" : String) ≠ "Country"
      decide
    · show c ≠ "Country"
      have hp := List.find?_some hfind
      intro heq
      rw [heq] at hp
      have hdf : exactMatchesFor cols "Sales Count" = defaultExactNames "Sales Count" := by
        simp [exactMatchesFor]
      rw [hdf] at hp
      exact absurd hp (by decide)

/-- C5 (witness): the Sales Count exclusion at the one-column table. -/
theorem c5_sales_count_never_country_witness :
    ("Country" ∈ (["Country"] : List String)) ∧
    valueOf (fallbackMapping ["Country"]) "Sales Count" ≠ "Country" :=
  ⟨by decide, c5_sales_count_never_country ["Country"] (by decide)⟩

/-- C10: the exclusion guard of the fuzzy pass only rejects a column whose
lower-cased name is exactly "country"; on a table whose only column is
"Country Name" the keyword "count" matches it as a substring, so the Tier-2
pass resolves "Sales Count" to "Country Name". -/
theorem c10_country_name_captured_as_sales_count :
    valueOf (fallbackMapping ["Country Name"]) "Sales Count" = "Country Name" := by
  decide

/-! ## Cells, tables and the cleaning stage, from `excel_processor.py` -/

/-- A pandas cell: an integer, a text, or the missing marker NaN.
Numbers are modelled as integers (see the module docstring). -/
inductive Value where
  | int (n : Int)
  | str (s : String)
  | none_
deriving DecidableEq, Repr

/-- `pd.isna` on a cell. -/
def isNA : Value → Bool
  | Value.none_ => true
  | _ => false

/-- `str(value)` on a cell: pandas renders the missing marker NaN as the
text "nan". -/
def strOfValue : Value → String
  | Value.int n => toString n
  | Value.str s => s
  | Value.none_ => "nan"

/-- Decimal digits of a possibly signed integer literal, used to model
`pd.to_numeric(..., errors := coerce)`: an optional minus sign followed by a
nonempty run of digits parses; anything else coerces to missing. -/
def parseIntChars : List Char → Option Int
  | [] => none
  | '-' :: rest =>
      if !rest.isEmpty && rest.all Char.isDigit then
        some (-(Int.ofNat (rest.foldl (fun n c => 10 * n + (c.toNat - 48)) 0)))
      else none
  | l =>
      if l.all Char.isDigit then
        some (Int.ofNat (l.foldl (fun n c => 10 * n + (c.toNat - 48)) 0))
      else none

/-- `pd.to_numeric(col, errors := coerce).fillna(0)` on a single cell. -/
def toNumericFill0 : Value → Value
  | Value.int n => Value.int n
  | Value.str s =>
      match parseIntChars s.toList with
      | some n => Value.int n
      | none => Value.int 0
  | Value.none_ => Value.int 0

/-- Python `str.strip()` on a character list. -/
def trimChars (l : List Char) : List Char :=
  ((l.dropWhile Char.isWhitespace).reverse.dropWhile Char.isWhitespace).reverse

/-- The text-column cleaning of `clean_mapped_data`:
`astype(str).str.strip()` then `.replace('nan', 'Unknown')`. -/
def textClean (v : Value) : Value :=
  if trimChars (strOfValue v).toList == "nan".toList then Value.str "Unknown"
  else Value.str (String.mk (trimChars (strOfValue v).toList))

/-- The month-name table of `_normalize_month_column`. -/
def monthPairs : List (String × Nat) :=
  [("jan", 1), ("january", 1), ("feb", 2), ("february", 2), ("mar", 3),
   ("march", 3), ("apr", 4), ("april", 4), ("may", 5), ("jun", 6),
   ("june", 6), ("jul", 7), ("july", 7), ("aug", 8), ("august", 8),
   ("sep", 9), ("september", 9), ("oct", 10), ("october", 10), ("nov", 11),
   ("november", 11), ("dec", 12), ("december", 12)]

/-- The first maximal digit run of a character list
(`re.findall(r'\d+', s)[0]` when nonempty). -/
def firstDigitRun : List Char → Option (List Char)
  | [] => none
  | c :: rest =>
      if c.isDigit then some (c :: rest.takeWhile Char.isDigit)
      else firstDigitRun rest

/-- Value of a digit run. -/
def digitsToNat (l : List Char) : Nat :=
  l.foldl (fun n c => 10 * n + (c.toNat - 48)) 0

/-- The range clamp of `normalize_month`:
`month_num if 1 <= month_num <= 12 else 0`. -/
def clampMonth (n : Nat) : Nat :=
  if 1 ≤ n ∧ n ≤ 12 then n else 0

/-- `normalize_month` of `_normalize_month_column` on a single cell, as the
month number it returns: missing is 0; else the cell text is lower-cased and
stripped; a pure digit string is clamped to 1..12; a month name maps through
the table; otherwise the first embedded digit run is clamped; no digit run
at all is 0. -/
def normalizeMonthNat (v : Value) : Nat :=
  match v with
  | Value.none_ => 0
  | v =>
      if !(trimChars (lowerOf (strOfValue v))).isEmpty &&
          (trimChars (lowerOf (strOfValue v))).all Char.isDigit then
        clampMonth (digitsToNat (trimChars (lowerOf (strOfValue v))))
      else
        match monthPairs.find?
            (fun p => p.1.toList == trimChars (lowerOf (strOfValue v))) with
        | some p => p.2
        | none =>
            match firstDigitRun (trimChars (lowerOf (strOfValue v))) with
            | some run => clampMonth (digitsToNat run)
            | none => 0

/-- `normalize_month` followed by the `.astype(int)` of
`_normalize_month_column`, as a cell. -/
def normalizeMonth (v : Value) : Value :=
  Value.int (normalizeMonthNat v)

/-- `numeric_columns` of `clean_mapped_data`. -/
def numericCols : List String := ["Sales Count", "Sales Value (usd)", "SOH"]

/-- `text_columns` of `clean_mapped_data` — note the literal
"Category or product name", exactly as in the source. -/
def textCols : List String :=
  ["Category or product name", "Country", "Description", "Type"]

/-- The numeric-column step of `clean_mapped_data` on one cell. -/
def numStep (col : String) (v : Value) : Value :=
  if numericCols.contains col then toNumericFill0 v else v

/-- The text-column step of `clean_mapped_data` on one cell. -/
def textStep (col : String) (v : Value) : Value :=
  if textCols.contains col then textClean v else v

/-- The Year step of `clean_mapped_data` on one cell
(`pd.to_numeric(...).fillna(0).astype(int)`; `astype(int)` is the identity
in the integer model). -/
def yearStep (col : String) (v : Value) : Value :=
  if col == "Year" then toNumericFill0 v else v

/-- The Month step of `clean_mapped_data` on one cell. -/
def monthStep (col : String) (v : Value) : Value :=
  if col == "Month" then normalizeMonth v else v

/-- The four column-cleaning steps of `clean_mapped_data`, applied in source
order to the cell of column `col`. -/
def cleanCell (col : String) (v : Value) : Value :=
  monthStep col (yearStep col (textStep col (numStep col v)))

/-- An in-memory table: ordered column names and rows of cells.
Every pandas DataFrame is rectangular (row width equals column count). -/
structure Table where
  headers : List String
  rows : List (List Value)
deriving DecidableEq, Repr

/-- Does a row survive `dropna(how := all)` — is some cell non-missing? -/
def rowNonEmpty (r : List Value) : Bool :=
  r.any (fun v => !isNA v)

/-- `ExcelProcessor.clean_mapped_data`: drop fully-empty rows, then apply
the numeric / text / Year / Month cleaning steps columnwise. -/
def cleanMappedData (t : Table) : Table :=
  { headers := t.headers,
    rows := (t.rows.filter rowNonEmpty).map
      (fun r => List.zipWith cleanCell t.headers r) }

/-- Rectangularity: every row is as wide as the header list (an invariant
of every pandas DataFrame). -/
def WellFormed (t : Table) : Prop :=
  ∀ r ∈ t.rows, r.length = t.headers.length

/-! ## Idempotence of the cleaning steps -/

/-- The head of a `dropWhile` result fails the predicate. -/
theorem dropWhile_head?_false (p : Char → Bool) :
    ∀ (l : List Char) (a : Char), (l.dropWhile p).head? = some a → p a = false := by
  intro l
  induction l with
  | nil => intro a h; cases h
  | cons b t ih =>
      intro a h
      by_cases hp : p b = true
      · rw [List.dropWhile_cons_of_pos hp] at h
        exact ih a h
      · rw [List.dropWhile_cons_of_neg hp] at h
        cases h
        exact Bool.eq_false_iff.mpr hp

/-- A list whose head fails the predicate is unchanged by `dropWhile`. -/
theorem dropWhile_eq_self_of_head?_false (p : Char → Bool) (l : List Char)
    (h : ∀ a, l.head? = some a → p a = false) : l.dropWhile p = l := by
  cases l with
  | nil => rfl
  | cons b t =>
      have hb : p b = false := h b rfl
      exact List.dropWhile_cons_of_neg (by simp [hb])

/-- Python `str.strip()` is idempotent. -/
theorem trimChars_idem (l : List Char) : trimChars (trimChars l) = trimChars l := by
  unfold trimChars
  have h1 : (((l.dropWhile Char.isWhitespace).reverse.dropWhile
      Char.isWhitespace).reverse).dropWhile Char.isWhitespace =
      ((l.dropWhile Char.isWhitespace).reverse.dropWhile Char.isWhitespace).reverse := by
    apply dropWhile_eq_self_of_head?_false
    intro a ha
    have hw : (l.dropWhile Char.isWhitespace).reverse.dropWhile Char.isWhitespace ≠ [] := by
      intro hnil
      rw [hnil] at ha
      cases ha
    obtain ⟨u, hu⟩ :=
      List.dropWhile_suffix (l := (l.dropWhile Char.isWhitespace).reverse)
        (p := Char.isWhitespace)
    have hlast : ((l.dropWhile Char.isWhitespace).reverse.dropWhile
        Char.isWhitespace).reverse.head? = (l.dropWhile Char.isWhitespace).head? := by
      rw [List.head?_reverse, ← List.getLast?_append_of_ne_nil u hw, hu,
        List.getLast?_reverse]
    rw [hlast] at ha
    exact dropWhile_head?_false Char.isWhitespace l a ha
  rw [h1, List.reverse_reverse, List.dropWhile_idempotent]

/-- `pd.to_numeric(...).fillna(0)` always yields an integer cell. -/
theorem toNumericFill0_int (v : Value) : ∃ n, toNumericFill0 v = Value.int n := by
  cases v with
  | int n => exact ⟨n, rfl⟩
  | none_ => exact ⟨0, rfl⟩
  | str s =>
      simp only [toNumericFill0]
      rcases parseIntChars s.toList with _ | n
      · exact ⟨0, rfl⟩
      · exact ⟨n, rfl⟩

/-- `pd.to_numeric(...).fillna(0)` never yields a missing cell. -/
theorem isNA_toNumericFill0 (v : Value) : isNA (toNumericFill0 v) = false := by
  obtain ⟨n, hn⟩ := toNumericFill0_int v
  rw [hn]
  rfl

/-- The numeric-column cleaning step is idempotent on a cell. -/
theorem toNumericFill0_idem (v : Value) :
    toNumericFill0 (toNumericFill0 v) = toNumericFill0 v := by
  obtain ⟨n, hn⟩ := toNumericFill0_int v
  rw [hn]
  rfl

/-- The text-column cleaning step never yields a missing cell. -/
theorem isNA_textClean (v : Value) : isNA (textClean v) = false := by
  unfold textClean
  by_cases h : (trimChars (strOfValue v).toList == "nan".toList) = true
  · rw [if_pos h]
    rfl
  · rw [if_neg h]
    rfl

/-- The text-column cleaning step is idempotent on a cell. -/
theorem textClean_idem (v : Value) : textClean (textClean v) = textClean v := by
  by_cases h : (trimChars (strOfValue v).toList == "nan".toList) = true
  · have h1 : textClean v = Value.str "Unknown" := by
      unfold textClean
      rw [if_pos h]
    rw [h1]
    decide
  · have h1 : textClean v = Value.str (String.mk (trimChars (strOfValue v).toList)) := by
      unfold textClean
      rw [if_neg h]
    rw [h1]
    unfold textClean
    have h2 : strOfValue (Value.str (String.mk (trimChars (strOfValue v).toList))) =
        String.mk (trimChars (strOfValue v).toList) := rfl
    have h3 : (String.mk (trimChars (strOfValue v).toList)).toList =
        trimChars (strOfValue v).toList := rfl
    rw [h2, h3, trimChars_idem, if_neg h]

/-- The clamp keeps months in 0..12. -/
theorem clampMonth_le (n : Nat) : clampMonth n ≤ 12 := by
  unfold clampMonth
  split
  · omega
  · omega

/-- `normalize_month` always returns a month number in 0..12. -/
theorem normalizeMonthNat_le (v : Value) : normalizeMonthNat v ≤ 12 := by
  unfold normalizeMonthNat
  split
  · omega
  · split
    · exact clampMonth_le _
    · split
      · rename_i p hp
        have hmem := List.mem_of_find?_eq_some hp
        have hall : ∀ q ∈ monthPairs, q.2 ≤ 12 := by decide
        exact hall p hmem
      · split
        · exact clampMonth_le _
        · omega

/-- `normalize_month` is the identity on month numbers it produces. -/
theorem normalizeMonthNat_fix (n : Nat) (h : n ≤ 12) :
    normalizeMonthNat (Value.int (n : Int)) = n := by
  interval_cases n <;> decide

/-- The month normalization step is idempotent on a cell. -/
theorem normalizeMonth_idem (v : Value) :
    normalizeMonth (normalizeMonth v) = normalizeMonth v := by
  unfold normalizeMonth
  rw [normalizeMonthNat_fix (normalizeMonthNat v) (normalizeMonthNat_le v)]

/-- On a numeric canonical column the composite cleaning is the numeric
step alone (the four literal column lists are pairwise disjoint). -/
theorem cleanCell_of_numeric (col : String) (v : Value)
    (h : numericCols.contains col = true) : cleanCell col v = toNumericFill0 v := by
  have hm : col ∈ numericCols := List.mem_of_elem_eq_true h
  simp only [numericCols, List.mem_cons, List.not_mem_nil, or_false] at hm
  rcases hm with rfl | rfl | rfl <;> rfl

/-- On a text canonical column the composite cleaning is the text step
alone. -/
theorem cleanCell_of_text (col : String) (v : Value)
    (h : textCols.contains col = true) : cleanCell col v = textClean v := by
  have hm : col ∈ textCols := List.mem_of_elem_eq_true h
  simp only [textCols, List.mem_cons, List.not_mem_nil, or_false] at hm
  rcases hm with rfl | rfl | rfl | rfl <;> rfl

/-- On the Year column the composite cleaning is the Year step alone. -/
theorem cleanCell_of_year (v : Value) :
    cleanCell "Year" v = toNumericFill0 v := rfl

/-- On the Month column the composite cleaning is the Month step alone. -/
theorem cleanCell_of_month (v : Value) :
    cleanCell "Month" v = normalizeMonth v := rfl

/-- On any other column the cleaning leaves the cell unchanged. -/
theorem cleanCell_of_other (col : String) (v : Value)
    (h1 : numericCols.contains col = false)
    (h2 : textCols.contains col = false)
    (h3 : (col == "Year") = false)
    (h4 : (col == "Month") = false) : cleanCell col v = v := by
  unfold cleanCell monthStep yearStep textStep numStep
  rw [h1, h2, h3, h4]
  rfl

/-- The composite per-cell cleaning is idempotent. -/
theorem cleanCell_idem (col : String) (v : Value) :
    cleanCell col (cleanCell col v) = cleanCell col v := by
  by_cases h1 : numericCols.contains col = true
  · rw [cleanCell_of_numeric col _ h1, cleanCell_of_numeric col _ h1,
      toNumericFill0_idem]
  by_cases h2 : textCols.contains col = true
  · rw [cleanCell_of_text col _ h2, cleanCell_of_text col _ h2, textClean_idem]
  by_cases h3 : (col == "Year") = true
  · have : col = "Year" := eq_of_beq h3
    subst this
    rw [cleanCell_of_year, cleanCell_of_year, toNumericFill0_idem]
  by_cases h4 : (col == "Month") = true
  · have : col = "Month" := eq_of_beq h4
    subst this
    rw [cleanCell_of_month, cleanCell_of_month, normalizeMonth_idem]
  rw [cleanCell_of_other col _ (Bool.eq_false_iff.mpr h1) (Bool.eq_false_iff.mpr h2)
      (Bool.eq_false_iff.mpr h3) (Bool.eq_false_iff.mpr h4),
    cleanCell_of_other col _ (Bool.eq_false_iff.mpr h1) (Bool.eq_false_iff.mpr h2)
      (Bool.eq_false_iff.mpr h3) (Bool.eq_false_iff.mpr h4)]

/-- Cleaning never turns a present cell into a missing one. -/
theorem isNA_cleanCell (col : String) (v : Value) (h : isNA v = false) :
    isNA (cleanCell col v) = false := by
  by_cases h1 : numericCols.contains col = true
  · rw [cleanCell_of_numeric col _ h1]
    exact isNA_toNumericFill0 v
  by_cases h2 : textCols.contains col = true
  · rw [cleanCell_of_text col _ h2]
    exact isNA_textClean v
  by_cases h3 : (col == "Year") = true
  · have : col = "Year" := eq_of_beq h3
    subst this
    rw [cleanCell_of_year]
    exact isNA_toNumericFill0 v
  by_cases h4 : (col == "Month") = true
  · have : col = "Month" := eq_of_beq h4
    subst this
    rw [cleanCell_of_month]
    obtain ⟨n, hn⟩ : ∃ n, normalizeMonth v = Value.int n := ⟨_, rfl⟩
    rw [hn]
    rfl
  rw [cleanCell_of_other col _ (Bool.eq_false_iff.mpr h1) (Bool.eq_false_iff.mpr h2)
      (Bool.eq_false_iff.mpr h3) (Bool.eq_false_iff.mpr h4)]
  exact h

/-- A surviving row still has a present cell after columnwise cleaning
(for rows no wider than the header list). -/
theorem rowNonEmpty_zipWith (hs : List String) (r : List Value)
    (hlen : r.length ≤ hs.length) (h : rowNonEmpty r = true) :
    rowNonEmpty (List.zipWith cleanCell hs r) = true := by
  induction r generalizing hs with
  | nil => cases h
  | cons v r' ih =>
      cases hs with
      | nil => exact absurd hlen (by simp)
      | cons c hs' =>
          rw [List.zipWith_cons_cons]
          rcases hv : isNA v with _ | _
          · have hcc : isNA (cleanCell c v) = false := isNA_cleanCell c v hv
            simp [rowNonEmpty, hcc]
          · have htail : rowNonEmpty r' = true := by
              simpa [rowNonEmpty, hv] using h
            have hlen' : r'.length ≤ hs'.length := by
              simp only [List.length_cons] at hlen
              omega
            have hzip := ih hs' hlen' htail
            simp only [rowNonEmpty] at hzip
            simp [rowNonEmpty, hzip]

/-- Columnwise cleaning of a row is idempotent. -/
theorem zipWith_cleanCell_idem (hs : List String) (r : List Value) :
    List.zipWith cleanCell hs (List.zipWith cleanCell hs r) =
    List.zipWith cleanCell hs r := by
  induction hs generalizing r with
  | nil => rfl
  | cons c hs' ih =>
      cases r with
      | nil => rfl
      | cons v r' =>
          rw [List.zipWith_cons_cons, List.zipWith_cons_cons, cleanCell_idem, ih]

/-- C7: the cleaning stage `clean_mapped_data` is idempotent — dropping
fully-empty rows, 0-filling numeric columns, trimming text columns with the
nan-to-Unknown replacement, and coercing Year and Month a second time
changes nothing, for every rectangular table. -/
theorem c7_clean_idempotent (t : Table) (hwf : WellFormed t) :
    cleanMappedData (cleanMappedData t) = cleanMappedData t := by
  unfold cleanMappedData
  simp only
  congr 1
  have hall : ∀ r ∈ (t.rows.filter rowNonEmpty).map
      (fun r => List.zipWith cleanCell t.headers r), rowNonEmpty r = true := by
    intro r hr
    rcases List.mem_map.mp hr with ⟨r0, hr0, rfl⟩
    have hmem := (List.mem_filter.mp hr0).1
    have hne := (List.mem_filter.mp hr0).2
    exact rowNonEmpty_zipWith t.headers r0 (le_of_eq (hwf r0 hmem)) hne
  rw [List.filter_eq_self.mpr hall, List.map_map]
  exact List.map_congr_left fun r _ => zipWith_cleanCell_idem t.headers r

/-- C7 (witness): idempotence at a concrete mapped table with messy cells
and a fully-empty row. -/
theorem c7_clean_idempotent_witness :
    WellFormed ⟨REQUIRED_COLUMNS,
      [[Value.str " A ", Value.str "nan", Value.str "2020", Value.str "Jan",
        Value.none_, Value.str "7", Value.str "x", Value.none_, Value.str " B "],
       [Value.none_, Value.none_, Value.none_, Value.none_, Value.none_,
        Value.none_, Value.none_, Value.none_, Value.none_]]⟩ ∧
    cleanMappedData (cleanMappedData ⟨REQUIRED_COLUMNS,
      [[Value.str " A ", Value.str "nan", Value.str "2020", Value.str "Jan",
        Value.none_, Value.str "7", Value.str "x", Value.none_, Value.str " B "],
       [Value.none_, Value.none_, Value.none_, Value.none_, Value.none_,
        Value.none_, Value.none_, Value.none_, Value.none_]]⟩) =
    cleanMappedData ⟨REQUIRED_COLUMNS,
      [[Value.str " A ", Value.str "nan", Value.str "2020", Value.str "Jan",
        Value.none_, Value.str "7", Value.str "x", Value.none_, Value.str " B "],
       [Value.none_, Value.none_, Value.none_, Value.none_, Value.none_,
        Value.none_, Value.none_, Value.none_, Value.none_]]⟩ :=
  ⟨by
    intro r hr
    simp only [List.mem_cons, List.not_mem_nil, or_false] at hr
    rcases hr with rfl | rfl <;> rfl,
   c7_clean_idempotent _ (by
    intro r hr
    simp only [List.mem_cons, List.not_mem_nil, or_false] at hr
    rcases hr with rfl | rfl <;> rfl)⟩

/-- C6 (code bug): the cleaning stage never cleans the canonical
"Product Name" column — the source's text-column list names
"Category or product name", a column that cannot occur in a mapped table.
At this mapped table the "Product Name" value "nan" survives cleaning
unchanged (the claim requires "Unknown"), while "Country" is cleaned. -/
theorem c6_product_name_left_unclean :
    (cleanMappedData ⟨REQUIRED_COLUMNS,
      [[Value.str "nan", Value.str "nan", Value.int 2020, Value.int 1,
        Value.int 5, Value.int 100, Value.int 3, Value.str " x ",
        Value.str "A"]]⟩).rows =
    [[Value.str "nan", Value.str "Unknown", Value.int 2020, Value.int 1,
      Value.int 5, Value.int 100, Value.int 3, Value.str "x",
      Value.str "A"]] := by
  decide

/-! ## Header detection, from `_read_sheet_with_header_detection` and
`_is_valid_header` in `excel_processor.py` -/

/-- The column names a pandas read produces from a header row: a missing
header cell at position `i` becomes the unnamed placeholder "Unnamed: i",
any other cell its text. -/
def colNames (r : List Value) : List String :=
  (r.enum).map (fun p => match p.2 with
    | Value.none_ => "Unnamed: " ++ toString p.1
    | v => strOfValue v)

/-- `str(col).startswith('Unnamed')`. -/
def startsUnnamed (c : String) : Bool :=
  leadMatch "Unnamed".toList c.toList

/-- The count of unnamed-placeholder column names. -/
def unnamedCount (names : List String) : Nat :=
  (names.filter startsUnnamed).length

/-- `' '.join(...)` on lower-cased names, as a character list. -/
def joinLowerNames : List String → List Char
  | [] => []
  | [s] => lowerOf s
  | s :: rest => lowerOf s ++ ' ' :: joinLowerNames rest

/-- The keyword set of `_is_valid_header`. -/
def headerKeywords : List String :=
  ["sales", "product", "item", "category", "quantity", "price", "revenue",
   "profit", "country", "year", "month"]

/-- `ExcelProcessor._is_valid_header`: nonempty, at least 2 keywords appear
in the space-joined lower-cased names, and strictly fewer than 50% of the
names are unnamed placeholders. -/
def isValidHeader (names : List String) : Bool :=
  if names.length == 0 then false
  else
    ((headerKeywords.filter
        (fun k => hasSub k.toList (joinLowerNames names))).length ≥ 2 : Bool) &&
      (unnamedCount names * 2 < names.length : Bool)

/-- The probe loop of `_read_sheet_with_header_detection`: the first header
row index in `range(1, min(10, len(df)))` whose induced column names form a
valid header (`len(df)` is the data-row count of the header-0 read). -/
def probeRows (rows : List (List Value)) : Option Nat :=
  match rows with
  | [] => none
  | _ :: rest =>
      (List.range' 1 (min 10 rest.length - 1)).find?
        (fun h => match rows.get? h with
          | some r => isValidHeader (colNames r)
          | none => false)

/-- The row index `_read_sheet_with_header_detection` settles on through the
probe loop, when the header-0 read is mostly unnamed and some probed row is
valid. -/
def headerChoice (rows : List (List Value)) : Option Nat :=
  match rows with
  | [] => none
  | r0 :: _ =>
      if unnamedCount (colNames r0) * 2 > (colNames r0).length then probeRows rows
      else none

/-- The keyword set of `_infer_headers_from_data`. -/
def inferKeywords : List String :=
  ["sales", "product", "item", "category", "quantity", "price", "revenue",
   "profit"]

/-- The space-joined lower-cased text of the non-missing cells of a row
(`row_text` in `_infer_headers_from_data`). -/
def rowText (r : List Value) : List Char :=
  joinLowerNames (r.filterMap (fun v => match v with
    | Value.none_ => none
    | v => some (strOfValue v)))

/-- The header names `_infer_headers_from_data` builds from a data row:
missing cells become "Column_j". -/
def inferNames (r : List Value) : List String :=
  (r.enum).map (fun p => match p.2 with
    | Value.none_ => "Column_" ++ toString p.1
    | v => strOfValue v)

/-- `ExcelProcessor._infer_headers_from_data` on the header-0 read
(`names0` are its column names, `data` its rows): the first of the first 5
data rows whose text contains an inference keyword becomes the header and is
removed from the data; otherwise the table is unchanged. -/
def inferHeaders (names0 : List String) (data : List (List Value)) :
    List String × List (List Value) :=
  match (List.range (min 5 data.length)).find?
      (fun i => match data.get? i with
        | some r => inferKeywords.any (fun k => hasSub k.toList (rowText r))
        | none => false) with
  | some i =>
      match data.get? i with
      | some r => (inferNames r, data.take i ++ data.drop (i + 1))
      | none => (names0, data)
  | none => (names0, data)

/-- `ExcelProcessor._read_sheet_with_header_detection`, on a sheet given as
its raw rows: read with header row 0; if more than 50% of the resulting
names are unnamed placeholders, probe rows 1 .. min(10, len(df))-1 for a
valid header (first hit wins, its row and everything above become
non-data); if no probed row is valid, fall back to
`_infer_headers_from_data`. -/
def readSheetWithHeaderDetection (rows : List (List Value)) :
    List String × List (List Value) :=
  match rows with
  | [] => ([], [])
  | r0 :: rest =>
      if unnamedCount (colNames r0) * 2 > (colNames r0).length then
        match probeRows rows with
        | some h =>
            match rows.get? h with
            | some r => (colNames r, rows.drop (h + 1))
            | none => (colNames r0, rest)
        | none => inferHeaders (colNames r0) rest
      else (colNames r0, rest)

/-! ## Claims about header detection -/

/-- C8 (counterexample): the probe takes the first satisfying row, so a
workbook whose row 0 is an all-unnamed title row and whose row 2 contains
{Product, Sales, Country, Year} resolves to row 1 — not row 2 — when row 1
also forms a valid header.  Here rows 1 and 2 are identical keyword rows. -/
theorem c8_counterexample :
    headerChoice
      [[Value.none_, Value.none_, Value.none_, Value.none_],
       [Value.str "Product", Value.str "Sales", Value.str "Country", Value.str "Year"],
       [Value.str "Product", Value.str "Sales", Value.str "Country", Value.str "Year"],
       [Value.str "a", Value.int 1, Value.str "b", Value.int 2020]] = some 1 ∧
    headerChoice
      [[Value.none_, Value.none_, Value.none_, Value.none_],
       [Value.str "Product", Value.str "Sales", Value.str "Country", Value.str "Year"],
       [Value.str "Product", Value.str "Sales", Value.str "Country", Value.str "Year"],
       [Value.str "a", Value.int 1, Value.str "b", Value.int 2020]] ≠ some 2 := by
  constructor
  · decide
  · decide

/-- C8 (amended): if row 0 of the sheet is mostly unnamed (more than 50%
unnamed placeholders), row 1 does not form a valid header, row 2 does (at
least 2 keywords, fewer than 50% unnamed), and there is at least one row
below row 2 (so the probe range reaches row 2), then the reader selects
row 2 as the header row and the resulting data are exactly the rows below
it — the title row is discarded. -/
theorem c8_header_row_two_selected (r0 r1 r2 : List Value)
    (rest : List (List Value))
    (h0 : unnamedCount (colNames r0) * 2 > (colNames r0).length)
    (h1 : isValidHeader (colNames r1) = false)
    (h2 : isValidHeader (colNames r2) = true)
    (hr : rest ≠ []) :
    headerChoice (r0 :: r1 :: r2 :: rest) = some 2 ∧
    readSheetWithHeaderDetection (r0 :: r1 :: r2 :: rest) = (colNames r2, rest) := by
  have hn : 1 ≤ rest.length := List.length_pos.mpr hr
  have hk : ∃ k, min 10 (rest.length + 2) - 1 = k + 2 := by
    rcases Nat.le_total (rest.length + 2) 10 with h | h
    · rw [Nat.min_eq_right h]
      exact ⟨rest.length - 1, by omega⟩
    · rw [Nat.min_eq_left h]
      exact ⟨7, by omega⟩
  obtain ⟨k, hk⟩ := hk
  have hprobe : probeRows (r0 :: r1 :: r2 :: rest) = some 2 := by
    show (List.range' 1 (min 10 ((r1 :: r2 :: rest).length) - 1)).find?
        (fun h => match (r0 :: r1 :: r2 :: rest).get? h with
          | some r => isValidHeader (colNames r)
          | none => false) = some 2
    have hlen : (r1 :: r2 :: rest).length = rest.length + 2 := by
      simp [List.length_cons]
    rw [hlen, hk, List.range'_succ 1 (k + 1) 1, List.range'_succ 2 k 1]
    rw [List.find?_cons_of_neg _ (by
      show ¬((match (r0 :: r1 :: r2 :: rest).get? 1 with
        | some r => isValidHeader (colNames r)
        | none => false) = true)
      show ¬(isValidHeader (colNames r1) = true)
      simp [h1])]
    rw [List.find?_cons_of_pos _ (by
      show (match (r0 :: r1 :: r2 :: rest).get? 2 with
        | some r => isValidHeader (colNames r)
        | none => false) = true
      show isValidHeader (colNames r2) = true
      exact h2)]
  constructor
  · show (if unnamedCount (colNames r0) * 2 > (colNames r0).length then
        probeRows (r0 :: r1 :: r2 :: rest) else none) = some 2
    rw [if_pos h0, hprobe]
  · show (if unnamedCount (colNames r0) * 2 > (colNames r0).length then
        match probeRows (r0 :: r1 :: r2 :: rest) with
        | some h =>
            match (r0 :: r1 :: r2 :: rest).get? h with
            | some r => (colNames r, (r0 :: r1 :: r2 :: rest).drop (h + 1))
            | none => (colNames r0, r1 :: r2 :: rest)
        | none => inferHeaders (colNames r0) (r1 :: r2 :: rest)
      else (colNames r0, r1 :: r2 :: rest)) = (colNames r2, rest)
    rw [if_pos h0, hprobe]
    rfl

/-- C8 (witness): the amended header theorem at a concrete workbook — an
all-unnamed title row, a blank row, the keyword row {Product, Sales,
Country, Year}, and one data row. -/
theorem c8_header_row_two_selected_witness :
    headerChoice
      [[Value.none_, Value.none_, Value.none_, Value.none_],
       [Value.none_, Value.none_, Value.none_, Value.none_],
       [Value.str "Product", Value.str "Sales", Value.str "Country", Value.str "Year"],
       [Value.str "a", Value.int 1, Value.str "b", Value.int 2020]] = some 2 ∧
    readSheetWithHeaderDetection
      [[Value.none_, Value.none_, Value.none_, Value.none_],
       [Value.none_, Value.none_, Value.none_, Value.none_],
       [Value.str "Product", Value.str "Sales", Value.str "Country", Value.str "Year"],
       [Value.str "a", Value.int 1, Value.str "b", Value.int 2020]] =
      (colNames [Value.str "Product", Value.str "Sales", Value.str "Country",
        Value.str "Year"],
       [[Value.str "a", Value.int 1, Value.str "b", Value.int 2020]]) :=
  c8_header_row_two_selected
    [Value.none_, Value.none_, Value.none_, Value.none_]
    [Value.none_, Value.none_, Value.none_, Value.none_]
    [Value.str "Product", Value.str "Sales", Value.str "Country", Value.str "Year"]
    [[Value.str "a", Value.int 1, Value.str "b", Value.int 2020]]
    (by decide) (by decide) (by decide) (by decide)

/-! ## Sheet scoring, from `detect_best_sheet_for_analysis` in
`excel_processor.py`.  Scores are rationals; the only float-specific detail
not captured is binary rounding of the 0.7 unnamed-column threshold, which
no claim touches. -/

/-- The weighted keyword table of `detect_best_sheet_for_analysis`. -/
def salesKeywordWeights : List (String × Nat) :=
  [("sales", 15), ("revenue", 15), ("amount", 10), ("value", 10),
   ("earning", 10), ("product", 12), ("item", 12), ("description", 8),
   ("quantity", 10), ("qty", 10), ("volume", 8), ("ims", 8), ("soh", 6),
   ("category", 8), ("type", 6), ("group", 6), ("price", 8), ("cost", 6),
   ("rate", 6), ("ptt", 6), ("country", 6), ("region", 6), ("market", 6),
   ("year", 5), ("month", 5), ("date", 5), ("customer", 5), ("client", 5),
   ("profit", 10), ("margin", 8), ("gain", 8)]

/-- Step 1: the weight of every keyword occurring in the space-joined
lower-cased column-name text, each counted once. -/
def keywordScore (headers : List String) : Nat :=
  ((salesKeywordWeights.filter
      (fun p => hasSub p.1.toList (joinLowerNames headers))).map Prod.snd).sum

/-- Step 2: the per-column role bonus (+5 sales-ish, +3 product-ish,
+3 quantity-ish, first match wins per column). -/
def roleBonus (c : String) : Nat :=
  if ["sales", "revenue", "amount", "value"].any
      (fun k => hasSub k.toList (lowerOf c)) then 5
  else if ["product", "item", "description"].any
      (fun k => hasSub k.toList (lowerOf c)) then 3
  else if ["quantity", "qty", "volume", "ims"].any
      (fun k => hasSub k.toList (lowerOf c)) then 3
  else 0

/-- Step 2 summed over all columns. -/
def roleScore (headers : List String) : Nat :=
  (headers.map roleBonus).sum

/-- `len(df.dropna(how := all))`. -/
def nonEmptyRowCount (rows : List (List Value)) : Nat :=
  (rows.filter rowNonEmpty).length

/-- Step 3: the data-volume score, capped at 15. -/
def volumeScore (rows : List (List Value)) : ℚ :=
  if 0 < nonEmptyRowCount rows then
    min ((nonEmptyRowCount rows : ℚ) / 200) 15
  else 0

/-- Does a column name qualify for the numeric-density pass? -/
def qualNumeric (c : String) : Bool :=
  ["sales", "revenue", "amount", "value", "quantity", "qty", "ims"].any
    (fun k => hasSub k.toList (lowerOf c))

/-- Is a cell counted by `pd.to_numeric(col, errors := coerce).notna()`? -/
def isNumericLike : Value → Bool
  | Value.int _ => true
  | Value.str s => (parseIntChars s.toList).isSome
  | Value.none_ => false

/-- The count of numeric-coercible cells in column `j`. -/
def numericCountAt (rows : List (List Value)) (j : Nat) : Nat :=
  ((rows.filterMap (fun r => r.get? j)).filter isNumericLike).length

/-- Step 4 accumulator: per qualifying column, min(count/100, 10). -/
def ndsGo (rows : List (List Value)) : List String → Nat → ℚ
  | [], _ => 0
  | c :: cs, j =>
      (if qualNumeric c then
        (if 0 < numericCountAt rows j then
          min ((numericCountAt rows j : ℚ) / 100) 10
        else 0)
      else 0) + ndsGo rows cs (j + 1)

/-- Step 4: the numeric-density score before the sheet-wide cap. -/
def numericDataScore (headers : List String) (rows : List (List Value)) : ℚ :=
  ndsGo rows headers 0

/-- The sheet-name bonus keyword set. -/
def sheetNameBonusKw : List String :=
  ["sales", "revenue", "raw", "data", "report", "siso", "q1"]

/-- `detect_best_sheet_for_analysis`'s additive score of one sheet: keyword
weights, per-column role bonuses, volume score, numeric-density score capped
at 20, the unnamed-column penalty, the sheet-name bonus, floored at 0. -/
def sheetScore (name : String) (headers : List String)
    (rows : List (List Value)) : ℚ :=
  max 0 ((keywordScore headers : ℚ) + (roleScore headers : ℚ) +
    volumeScore rows + min (numericDataScore headers rows) 20 +
    (if 10 * unnamedCount headers > 7 * headers.length then -20 else 0) +
    (if sheetNameBonusKw.any (fun k => hasSub k.toList (lowerOf name)) then 10
     else 0))

/-- The volume score is nonnegative. -/
theorem volumeScore_nonneg (rows : List (List Value)) : 0 ≤ volumeScore rows := by
  unfold volumeScore
  split
  · refine le_min ?_ ?_
    · positivity
    · norm_num
  · exact le_refl 0

/-- The volume score is at most 15. -/
theorem volumeScore_le (rows : List (List Value)) : volumeScore rows ≤ 15 := by
  unfold volumeScore
  split
  · exact min_le_right _ _
  · norm_num

/-- The numeric-density accumulator is nonnegative. -/
theorem ndsGo_nonneg (rows : List (List Value)) :
    ∀ (cs : List String) (j : Nat), 0 ≤ ndsGo rows cs j := by
  intro cs
  induction cs with
  | nil => intro j; exact le_refl 0
  | cons c cs' ih =>
      intro j
      refine add_nonneg ?_ (ih (j + 1))
      split
      · split
        · refine le_min ?_ ?_
          · positivity
          · norm_num
        · exact le_refl 0
      · exact le_refl 0

/-- C9: for all row contents, the sheet named "SISO" with columns
{IMS, SOH (Vol), PTT} scores strictly higher than the sheet named "Notes"
with columns {Comment, Date} under the additive sheet scoring. -/
theorem c9_siso_beats_notes (rowsS rowsN : List (List Value)) :
    sheetScore "SISO" ["IMS", "SOH (Vol)", "PTT"] rowsS >
    sheetScore "Notes" ["Comment", "Date"] rowsN := by
  have hmS0 : (0 : ℚ) ≤ min (numericDataScore ["IMS", "SOH (Vol)", "PTT"] rowsS) 20 :=
    le_min (ndsGo_nonneg rowsS _ 0) (by norm_num)
  have hS : (33 : ℚ) ≤ sheetScore "SISO" ["IMS", "SOH (Vol)", "PTT"] rowsS := by
    unfold sheetScore
    rw [(by decide : keywordScore ["IMS", "SOH (Vol)", "PTT"] = 20),
      (by decide : roleScore ["IMS", "SOH (Vol)", "PTT"] = 3),
      if_neg (by decide), if_pos (by decide)]
    refine le_trans ?_ (le_max_right 0 _)
    have hv := volumeScore_nonneg rowsS
    push_cast
    linarith
  have hndsN : numericDataScore ["Comment", "Date"] rowsN = 0 := by
    simp [numericDataScore, ndsGo,
      (by decide : qualNumeric "Comment" = false),
      (by decide : qualNumeric "Date" = false)]
  have hN : sheetScore "Notes" ["Comment", "Date"] rowsN ≤ 20 := by
    unfold sheetScore
    rw [(by decide : keywordScore ["Comment", "Date"] = 5),
      (by decide : roleScore ["Comment", "Date"] = 0),
      if_neg (by decide), if_neg (by decide), hndsN]
    refine max_le (by norm_num) ?_
    have hv := volumeScore_le rowsN
    push_cast
    rw [(by norm_num : min (0 : ℚ) 20 = 0)]
    linarith
  linarith
